import Mathlib

/-!
Verification of the gou invocation engine and connector layer.

Shallow embedding of the dispatch core of the repository (`Caller`,
`extraProcess`, the model handler table) and of the connector layer
(`connector.Load`, `connector.Select`, and the mongo driver functions
`setDefaults` and `getDSN`), together with theorems settling the
specification claims about them.

Strings are modelled as `List Char` (`Str`); the Go functions
`strings.Split`, `strings.ToLower` and `strings.Join` are embedded as
structurally recursive functions on character lists so that every
definition is executable and reducible by the kernel.
-/

/-- Go strings, modelled as character lists. -/
abbrev Str := List Char

/-- Lift a Lean string literal to the `Str` model. -/
def lit (s : String) : Str := s.data

namespace Gou

/-- Embeds `strings.Split(s, ".")`: split on every dot, keeping empty segments;
the empty string yields one empty segment, as in Go. -/
def splitDot : Str → List Str
  | [] => [[]]
  | c :: rest =>
    let r := splitDot rest
    if c = '.' then [] :: r
    else
      match r with
      | [] => [[c]]
      | s :: ss => (c :: s) :: ss

/-- Embeds `strings.ToLower`, modelled as per-character lowering. -/
def goToLower (s : Str) : Str := s.map Char.toLower

/-- Embeds `strings.Join(l, sep)`: concatenate with `sep` between consecutive
elements. -/
def goJoin (sep : Str) : List Str → Str
  | [] => []
  | [s] => s
  | s :: rest => s ++ sep ++ goJoin sep rest

/-- Embeds `strings.Join(l, ".")`. -/
def joinDot (l : List Str) : Str := goJoin (lit ".") l

/-- A thrown `exception.Exception` from the kun library: a message and a
numeric code. -/
structure Exn where
  message : Str
  code : Int
deriving DecidableEq, Repr

/-- The query-options type asserted against by the model handlers
(`QueryParam`). Its definition lives outside the extracted sources; the
handlers only test whether an argument has this dynamic type, so it is
embedded as an opaque record. `QueryParam{}` (the Go zero value) is
`⟨[]⟩`. -/
structure QueryParam where
  data : List Str := []
deriving DecidableEq, Repr

/-- A Go `interface{}` value as passed in the argument list of a caller:
each constructor is one dynamic type the dispatch code asserts against. -/
inductive GoValue where
  | queryParam (p : QueryParam)
  | str (s : Str)
  | int (n : Int)
  | boolean (b : Bool)
  | strList (l : List Str)
  | list (l : List GoValue)
  | rowsList (l : List (List GoValue))
  | mapVal (m : List (Str × GoValue))

/-- Embeds `str.Of` from the kun library: generic conversion of a value to a
string. External collaborator; embedded structurally over `GoValue`. -/
def strOf : GoValue → Str
  | .str s => s
  | .int n => lit (toString n)
  | .boolean b => if b then lit "true" else lit "false"
  | _ => []

/-- Embeds `any.Of(v).CInt()` from the kun library, used by `paginate` to coerce
page arguments. External collaborator; embedded loosely. -/
def cInt : GoValue → Int
  | .int n => n
  | .str s => (String.mk s).toInt?.getD 0
  | .boolean b => if b then 1 else 0
  | _ => 0

/-- Embeds `any.Of(v).Map().MapStrAny` from the kun library, used by `create`,
`update` and `save` to coerce row data. External collaborator; embedded
loosely. -/
def toMapStrAny : GoValue → List (Str × GoValue)
  | .mapVal m => m
  | _ => []

/-- The fixed model-method vocabulary of `ModelHandlers`. -/
inductive ModelMethod where
  | find | get | paginate | create | update | save | delete | destroy | insert
deriving DecidableEq, Repr

/-- The `ModelHandlers` table: method name to handler, as a lookup. -/
def ModelHandlers (m : Str) : Option ModelMethod :=
  if m = lit "find" then some .find
  else if m = lit "get" then some .get
  else if m = lit "paginate" then some .paginate
  else if m = lit "create" then some .create
  else if m = lit "update" then some .update
  else if m = lit "save" then some .save
  else if m = lit "delete" then some .delete
  else if m = lit "destroy" then some .destroy
  else if m = lit "insert" then some .insert
  else none

/-- A bound handler: the plugin executor `callerExec`, or one of the
model handlers from `ModelHandlers`. -/
inductive Handler where
  | exec
  | model (m : ModelMethod)
deriving DecidableEq, Repr

/-- The `Caller` struct. The Go field `Type` is `Typ` here (`Type` is
reserved in Lean); `Handler = none` models a nil handler field. -/
structure Caller where
  Name : Str
  Typ : Str
  Class : Str
  Method : Str
  Args : List GoValue
  Handler : Option Handler

/-- The malformed-name exception thrown by `extraProcess`
(`"Process:%s 格式错误"`, code 400). -/
def procFormatErr (name : Str) : Exn :=
  ⟨lit "Process:" ++ name ++ lit " 格式错误", 400⟩

/-- The method-not-found exception thrown by `extraProcess`
(`"%s 方法不存在"`, code 404). -/
def methodNotFoundErr (method : Str) : Exn :=
  ⟨method ++ lit " 方法不存在", 404⟩

/-- Lines 50-60 of `extraProcess`: split the name on `.`, throw the
format error when there are fewer than 3 segments, otherwise derive
lowercased `(Type, Class, Method)` from the first, middle and last
segments. -/
def parseFields (name : Str) : Except Exn (Str × Str × Str) :=
  let namer := splitDot name
  let last := namer.length - 1
  if last < 2 then
    .error (procFormatErr name)
  else
    let ty := goToLower (namer.getD 0 [])
    let cls := goToLower (joinDot ((namer.drop 1).take (last - 1)))
    let mth := goToLower (namer.getD last [])
    .ok (ty, cls, mth)

/-- Lines 61-69 of `extraProcess`: bind `callerExec` for `plugins`, look
up the model handler table for `models` (throwing 404 when the method is
absent), and leave the handler nil for every other domain — exactly as
the source does. -/
def bindHandler (c : Caller) : Except Exn Caller :=
  if c.Typ = lit "plugins" then
    .ok { c with Handler := some .exec }
  else if c.Typ = lit "models" then
    match ModelHandlers c.Method with
    | none => .error (methodNotFoundErr c.Method)
    | some h => .ok { c with Handler := some (.model h) }
  else
    .ok c

/-- Embeds `extraProcess`: parse the process name into fields, then bind the
handler. A thrown exception is an `Except.error`. -/
def extraProcess (name : Str) (args : List GoValue) : Except Exn Caller := do
  let (ty, cls, mth) ← parseFields name
  bindHandler ⟨name, ty, cls, mth, args, none⟩

/-- Embeds `NewCaller(name, args...)`: constructs the caller via
`extraProcess`. -/
def NewCaller (name : Str) (args : List GoValue) : Except Exn Caller :=
  extraProcess name args

/-- Embeds `validateArgNums(length)`: throw the missing-arguments exception
(code 400) when fewer arguments were forwarded. -/
def validateArgNums (c : Caller) (length : Nat) : Except Exn Unit :=
  if c.Args.length < length then
    .error ⟨lit "Model:" ++ c.Class ++ c.Name ++ lit "(args...); 缺少查询参数", 400⟩
  else
    .ok ()

/-- The backend operation a handler requests from the resolved model (or
plugin). Model and plugin operations are must-succeed external
collaborators, so the observable behaviour of a handler is the operation it
issues; the operation record carries the resolved class and the
(coerced) arguments exactly as the source passes them. -/
inductive Operation where
  | find (cls : Str) (key : GoValue) (params : QueryParam)
  | get (cls : Str) (params : QueryParam)
  | paginate (cls : Str) (params : QueryParam) (page pagesize : Int)
  | create (cls : Str) (row : List (Str × GoValue))
  | update (cls : Str) (key : GoValue) (row : List (Str × GoValue))
  | save (cls : Str) (row : List (Str × GoValue))
  | delete (cls : Str) (key : GoValue)
  | destroy (cls : Str) (key : GoValue)
  | insert (cls : Str) (columns : List Str) (rows : List (List GoValue))
  | exec (cls : Str) (method : Str) (args : List GoValue)

/-- What a handler returns on success: either the result of the backend
operation propagated to the caller (`opResult`), or Go `nil` after
performing the operation (`nilAfter`). -/
inductive HandlerResult where
  | opResult (op : Operation)
  | nilAfter (op : Operation)

/-- The wrong-first-argument exception (`"第1个查询参数错误 %v"`, 400). -/
def badArg1Err (v : GoValue) : Exn :=
  ⟨lit "第1个查询参数错误 " ++ strOf v, 400⟩

/-- The wrong-second-argument exception (`"第2个查询参数错误 %v"`, 400). -/
def badArg2Err (v : GoValue) : Exn :=
  ⟨lit "第2个查询参数错误 " ++ strOf v, 400⟩

/-- Embeds `callerExec`: invoke the named method of the plugin model with the forwarded
arguments and propagate its result (the remote call is an external
collaborator, modelled as its operation record). -/
def callerExec (c : Caller) : Except Exn HandlerResult :=
  .ok (.opResult (.exec c.Class c.Method c.Args))

/-- Embeds `callerFind`: two arguments required; the second is the query
options when it has the `QueryParam` type and is replaced by empty
options otherwise; propagates the result of `MustFind`. -/
def callerFind (c : Caller) : Except Exn HandlerResult := do
  let _ ← validateArgNums c 2
  let params :=
    match c.Args.getD 1 (.int 0) with
    | .queryParam p => p
    | _ => ({} : QueryParam)
  .ok (.opResult (.find c.Class (c.Args.getD 0 (.int 0)) params))

/-- Embeds `callerGet`: one argument required; it must have the `QueryParam`
type, otherwise the wrong-argument exception is thrown; propagates
the result of `MustGet`. -/
def callerGet (c : Caller) : Except Exn HandlerResult := do
  let _ ← validateArgNums c 1
  match c.Args.getD 0 (.int 0) with
  | .queryParam p => .ok (.opResult (.get c.Class p))
  | v => .error (badArg1Err v)

/-- Embeds `callerPaginate`: three arguments; the first must be `QueryParam`,
the page and page size are coerced with `CInt`; propagates
the result of `MustPaginate`. -/
def callerPaginate (c : Caller) : Except Exn HandlerResult := do
  let _ ← validateArgNums c 3
  match c.Args.getD 0 (.int 0) with
  | .queryParam p =>
      .ok (.opResult (.paginate c.Class p
        (cInt (c.Args.getD 1 (.int 0))) (cInt (c.Args.getD 2 (.int 0)))))
  | v => .error (badArg1Err v)

/-- Embeds `callerCreate`: one argument, coerced to a row map; propagates
the result of `MustCreate`. -/
def callerCreate (c : Caller) : Except Exn HandlerResult := do
  let _ ← validateArgNums c 1
  .ok (.opResult (.create c.Class (toMapStrAny (c.Args.getD 0 (.int 0)))))

/-- Embeds `callerUpdate`: two arguments (key, row map); performs `MustUpdate`
and returns `nil`. -/
def callerUpdate (c : Caller) : Except Exn HandlerResult := do
  let _ ← validateArgNums c 2
  .ok (.nilAfter (.update c.Class (c.Args.getD 0 (.int 0))
    (toMapStrAny (c.Args.getD 1 (.int 0)))))

/-- Embeds `callerSave`: one argument, coerced to a row map; propagates
the result of `MustSave`. -/
def callerSave (c : Caller) : Except Exn HandlerResult := do
  let _ ← validateArgNums c 1
  .ok (.opResult (.save c.Class (toMapStrAny (c.Args.getD 0 (.int 0)))))

/-- Embeds `callerDelete`: one argument (key); performs `MustDelete` and
returns `nil`. -/
def callerDelete (c : Caller) : Except Exn HandlerResult := do
  let _ ← validateArgNums c 1
  .ok (.nilAfter (.delete c.Class (c.Args.getD 0 (.int 0))))

/-- Embeds `callerDestroy`: one argument (key); performs `MustDestroy` and
returns `nil`. -/
def callerDestroy (c : Caller) : Except Exn HandlerResult := do
  let _ ← validateArgNums c 1
  .ok (.nilAfter (.destroy c.Class (c.Args.getD 0 (.int 0))))

/-- The row-extraction loop of `callerInsert`: every element of the
loosely typed second argument must itself be a `[]interface{}` row,
otherwise the wrong-second-argument exception is thrown (carrying the
whole second argument, as in the source). -/
def insertRowsLoop (arg1 : GoValue) : List GoValue → Except Exn (List (List GoValue))
  | [] => .ok []
  | .list row :: rest => do
      let rs ← insertRowsLoop arg1 rest
      .ok (row :: rs)
  | _ :: _ => .error (badArg2Err arg1)

/-- Embeds `callerInsert`: the first argument is `[]string` or a
`[]interface{}` coerced element-wise with `str.Of`; the second is
`[][]interface{}` or a `[]interface{}` of rows; any other shape throws;
performs `MustInsert` and returns `nil`. -/
def callerInsert (c : Caller) : Except Exn HandlerResult := do
  let _ ← validateArgNums c 2
  let colums ←
    match c.Args.getD 0 (.int 0) with
    | .strList l => Except.ok l
    | .list anyColums => Except.ok (anyColums.map strOf)
    | v => Except.error (badArg1Err v)
  let rows ←
    match c.Args.getD 1 (.int 0) with
    | .rowsList l => Except.ok l
    | .list anyRows => insertRowsLoop (.list anyRows) anyRows
    | v => Except.error (badArg2Err v)
  .ok (.nilAfter (.insert c.Class colums rows))

/-- Whether a value has the dynamic type `QueryParam` (the test the
type assertions in the handlers perform). -/
def isQueryParam : GoValue → Bool
  | .queryParam _ => true
  | _ => false

/-- Whether a value has the dynamic type `[]interface{}`. -/
def isListVal : GoValue → Bool
  | .list _ => true
  | _ => false

/-- Whether a value has one of the two column shapes `callerInsert`
accepts: `[]string`, or a `[]interface{}` to coerce. -/
def isColsShape : GoValue → Bool
  | .strList _ => true
  | .list _ => true
  | _ => false

/-- Whether a value has one of the two row shapes `callerInsert`
accepts: `[][]interface{}`, or a `[]interface{}` every element of which
is itself a `[]interface{}`. -/
def isRowsShape : GoValue → Bool
  | .rowsList _ => true
  | .list ys => ys.all isListVal
  | _ => false

/-- A handler outcome that never propagates a backend result: it is an
error, or `nil` returned after the operation. -/
def isNilReturn : Except Exn HandlerResult → Bool
  | .ok (.opResult _) => false
  | _ => true

/-- A handler outcome that never returns `nil` on success: it is an
error, or the propagated result of the backend operation. -/
def isPropagating : Except Exn HandlerResult → Bool
  | .ok (.nilAfter _) => false
  | _ => true

/-- Dispatch a bound handler to its embedded function, mirroring the
`ModelHandlers` table and `callerExec`. -/
def applyHandler : Handler → Caller → Except Exn HandlerResult
  | .exec, c => callerExec c
  | .model .find, c => callerFind c
  | .model .get, c => callerGet c
  | .model .paginate, c => callerPaginate c
  | .model .create, c => callerCreate c
  | .model .update, c => callerUpdate c
  | .model .save, c => callerSave c
  | .model .delete, c => callerDelete c
  | .model .destroy, c => callerDestroy c
  | .model .insert, c => callerInsert c

/-- The observable outcome of `Run()`: a handler result, a thrown
exception, or the runtime panic from invoking a nil handler field. -/
inductive RunOutcome where
  | result (r : HandlerResult)
  | exn (e : Exn)
  | nilHandlerPanic

/-- Embeds `Run()`: invoke the bound handler once; a caller whose handler was
never bound faults with the nil-function panic. -/
def Run (c : Caller) : RunOutcome :=
  match c.Handler with
  | none => .nilHandlerPanic
  | some h =>
    match applyHandler h c with
    | .ok r => .result r
    | .error e => .exn e

end Gou

namespace Conn

/-- The connector kind constants dispatched on by `make`. -/
inductive ConnKind where
  | DATABASE | REDIS | MONGO
deriving DecidableEq, Repr

/-- Modelled from the spec: the `types` table mapping the DSL `type`
discriminator to a connector kind is declared outside the extracted
sources; the spec fixes the closed discriminator set
{database, key-value-store, document-store}. -/
def types (typ : Str) : Option ConnKind :=
  if typ = lit "database" then some .DATABASE
  else if typ = lit "key-value-store" then some .REDIS
  else if typ = lit "document-store" then some .MONGO
  else none

/-- A live connector instance as stored in the Connector Table: the
driver kind chosen by `make` together with the registration inputs the
driver received. -/
structure ConnRec where
  kind : ConnKind
  file : Str
  id : Str
deriving DecidableEq, Repr

/-- The `Connectors` table (`map[string]Connector`), as an association
list; `set` is overwrite-on-conflict map assignment. -/
abbrev ConnTable := List (Str × ConnRec)

/-- Embeds `Connectors[id] = c`: overwrite-on-conflict assignment. -/
def tableSet (t : ConnTable) (id : Str) (c : ConnRec) : ConnTable :=
  (id, c) :: t.filter (fun e => ¬ e.1 = id)

/-- Embeds the `Connectors[id]` read. -/
def tableGet (t : ConnTable) (id : Str) : Option ConnRec :=
  (t.find? (fun e => e.1 = id)).map (·.2)

/-- The parsed generic DSL: `Load` reads only the `type` discriminator
from it. -/
structure DSL where
  type : Str
deriving DecidableEq, Repr

/-- Embeds `make(typ)`: look the discriminator up in `types` and construct the
matching driver, or fail with the unsupported-type error. The driver
instance is represented by its kind; registration inputs are filled in
by `Register`. -/
def make (typ : Str) : Except Str ConnKind :=
  match types typ with
  | none => .error (typ ++ lit " does not support")
  | some t => .ok t

/-- The external collaborators one `Load(file, id)` call consults:
the outcome of `application.App.Read(file)`, of `application.Parse` on
the bytes it returned, and of the chosen driver call
`Register(file, id, data)`. -/
structure LoadEnv where
  readResult : Except Str Str
  parseResult : Str → Except Str DSL
  registerResult : ConnKind → Str → Str → Str → Except Str Unit

/-- Embeds `Load(file, id)`: read the DSL source, parse it, construct the
driver via `make`, delegate `Register`, and only on success store the
connector into the table under `id` (overwriting) and return the stored
entry. The updated table is returned alongside the result of the call. -/
def Load (env : LoadEnv) (table : ConnTable) (file id : Str) :
    ConnTable × Except Str ConnRec :=
  match env.readResult with
  | .error e => (table, .error e)
  | .ok data =>
    match env.parseResult data with
    | .error e => (table, .error e)
    | .ok dsl =>
      match make dsl.type with
      | .error e => (table, .error e)
      | .ok kind =>
        match env.registerResult kind file id data with
        | .error e => (table, .error e)
        | .ok _ =>
          let c : ConnRec := ⟨kind, file, id⟩
          (tableSet table id c, .ok c)

/-- Embeds `Select(id)` exactly as the source writes it: `return nil, nil` for
every id, never consulting the table. -/
def Select (_table : ConnTable) (_id : Str) : Option ConnRec × Option Str :=
  (none, none)

/-- Modelled from the spec: the `Select(id)` contract — look `id` up in
the Connector Table and return the found connector, or an explicit
not-found failure for an unknown id. Stated for comparison with the
stub `Select` of the source. -/
def SelectSpec (table : ConnTable) (id : Str) : Option ConnRec × Option Str :=
  match tableGet table id with
  | some c => (some c, none)
  | none => (none, some (id ++ lit " not found"))

end Conn

namespace Mongo

/-- A mongo `Host` entry; absent JSON fields parse to the empty
string. -/
structure Host where
  host : Str := []
  port : Str := []
  user : Str := []
  pass : Str := []
deriving DecidableEq, Repr

/-- The mongo connector `Options`; the unexported `dsn` field starts as
the zero value (empty string) and is only written by `setDefaults`. -/
structure Options where
  db : Str := []
  timeout : Int := 0
  hosts : List Host := []
  params : List (Str × Str) := []
  dsn : Str := []
deriving DecidableEq, Repr

/-- The mongo `Connector` struct after `application.Parse` filled it
from the DSL. -/
structure Connector where
  id : Str := []
  file : Str := []
  name : Str := []
  version : Str := []
  options : Options := {}
deriving DecidableEq, Repr

/-- One iteration body of the hosts loop of `getDSN` for the entry at index
`i`: require host, default the port to 27017, require user and
password, and assemble `user:pass@host:port`. -/
def hostString (i : Nat) (h : Host) : Except Str Str :=
  if h.host = [] then
    .error (lit "hosts." ++ lit (toString i) ++ lit ".host is required")
  else
    let port := if h.port = [] then lit "27017" else h.port
    if h.user = [] then
      .error (lit "hosts." ++ lit (toString i) ++ lit ".user is required")
    else if h.pass = [] then
      .error (lit "hosts." ++ lit (toString i) ++ lit ".pass is required")
    else
      .ok (h.user ++ lit ":" ++ h.pass ++ lit "@" ++ h.host ++ lit ":" ++ port)

/-- The hosts loop of `getDSN`, accumulating the per-host strings in
order starting from index `i`. -/
def buildHosts (i : Nat) : List Host → Except Str (List Str)
  | [] => .ok []
  | h :: rest => do
    let s ← hostString i h
    let rs ← buildHosts (i + 1) rest
    .ok (s :: rs)

/-- Embeds `getDSN()`: require a database name and a non-empty hosts list,
validate and render every host, then assemble
`mongodb://host,host,.../` with the free-form params appended as query
parameters. -/
def getDSN (o : Options) : Except Str Str :=
  if o.db = [] then
    .error (lit "options.db is required")
  else if o.hosts.length = 0 then
    .error (lit "options.hosts is required")
  else do
    let hosts ← buildHosts 0 o.hosts
    let params := o.params.map (fun p => p.1 ++ lit "=" ++ p.2)
    let dsn := lit "mongodb://" ++ Gou.goJoin (lit ",") hosts ++ lit "/"
    if params.length > 0 then
      .ok (dsn ++ lit "?" ++ Gou.goJoin (lit "&") params)
    else
      .ok dsn

/-- Environment substitution of the fields of one host
(`helper.EnvString` on host, pass, user and port); the substitution
function is an external collaborator passed in as `env`. -/
def substHost (env : Str → Str) (h : Host) : Host :=
  { host := env h.host, port := env h.port, user := env h.user, pass := env h.pass }

/-- The hosts loop of `setDefaults`: for each index in turn, substitute
the fields of that host in place, then recompute the DSN from the whole
current options (failing the loop on a DSN error) and store it in the
`dsn` field. `fuel` is the number of remaining iterations, initially
the hosts count. -/
def setDefaultsLoop (env : Str → Str) : Options → Nat → Nat → Except Str Options
  | o, _, 0 => .ok o
  | o, i, fuel + 1 =>
    if hi : i < o.hosts.length then
      let o1 := { o with hosts := o.hosts.set i (substHost env (o.hosts.get ⟨i, hi⟩)) }
      match getDSN o1 with
      | .error e => .error e
      | .ok d => setDefaultsLoop env { o1 with dsn := d } (i + 1) fuel
    else
      .ok o

/-- Embeds `setDefaults()`: substitute the database name, default the timeout
to 5, then run the per-host substitution loop — the only place `getDSN`
is ever invoked. `env` models `helper.EnvString`; `helper.EnvInt` is
modelled by the explicit zero-default the source applies after it. -/
def setDefaults (env : Str → Str) (m : Connector) : Except Str Connector := do
  let timeout0 := m.options.timeout
  let timeout := if timeout0 = 0 then 5 else timeout0
  let o0 := { m.options with db := env m.options.db, timeout := timeout }
  let o ← setDefaultsLoop env o0 0 o0.hosts.length
  .ok { m with options := o }

/-- What one `Register` call does after a successful parse: run
`setDefaults`, and if it returned no error, hand the assembled DSN to
`mongo.Connect` — i.e. attempt a network connection. -/
inductive RegisterOutcome where
  | configError (e : Str)
  | connectionAttempt (dsn : Str)
deriving DecidableEq, Repr

/-- Lines 49-56 of `Register`: the control flow from `setDefaults` to
`makeConnection`, observing whether a network connection is attempted
and with which connection string. -/
def RegisterSteps (env : Str → Str) (m : Connector) : RegisterOutcome :=
  match setDefaults env m with
  | .error e => .configError e
  | .ok m1 => .connectionAttempt m1.options.dsn

end Mongo

/-- A two-host mongo options fixture whose first host omits the port,
used to witness the default-port property. -/
def portFixtureHost : Mongo.Host := ⟨lit "h1", [], lit "u1", lit "p1"⟩

/-- The options record carrying `portFixtureHost` plus a fully
specified second host and one extra connection parameter. -/
def portFixtureOptions : Mongo.Options :=
  { db := lit "db",
    hosts := [portFixtureHost, ⟨lit "h2", lit "27018", lit "u2", lit "p2"⟩],
    params := [(lit "ssl", lit "true")] }

/-- C5: for every process name with fewer than 3 dot-separated
segments, `NewCaller` fails with the malformed-name dispatch error
(code 400) and never proceeds to handler binding. -/
theorem C5_short_name_malformed (name : Str) (args : List Gou.GoValue)
    (h : (Gou.splitDot name).length < 3) :
    Gou.NewCaller name args = .error (Gou.procFormatErr name) := by
  unfold Gou.NewCaller Gou.extraProcess Gou.parseFields
  have h2 : (Gou.splitDot name).length - 1 < 2 := by omega
  simp [h2, Bind.bind, Except.bind]

/-- C5 witness: the two-segment name `a.b` fails with the
malformed-name error. -/
theorem C5_short_name_malformed_witness :
    (Gou.splitDot (lit "a.b")).length < 3 ∧
      Gou.NewCaller (lit "a.b") [] = .error (Gou.procFormatErr (lit "a.b")) :=
  ⟨by decide, C5_short_name_malformed (lit "a.b") [] (by decide)⟩

/-- C2: at the failing input `widgets.user.find` (first segment neither
`plugins` nor `models`), `NewCaller` does not fail at bind time: it
returns a caller whose handler is still unbound (`none`), and only
`Run()` faults, with the nil-handler panic rather than an
unsupported-domain error. -/
theorem C2_unknown_domain_left_unbound :
    Gou.NewCaller (lit "widgets.user.find") [] =
      .ok ⟨lit "widgets.user.find", lit "widgets", lit "user", lit "find", [], none⟩ ∧
    Gou.Run ⟨lit "widgets.user.find", lit "widgets", lit "user", lit "find", [], none⟩ =
      .nilHandlerPanic :=
  ⟨rfl, rfl⟩

/-- C3: the source `Select` returns `(nil, nil)` even for a registered
id and for an unknown id alike, while the specified contract
(`SelectSpec`) returns the stored connector for the former and an
explicit not-found failure for the latter. -/
theorem C3_select_stub_returns_nothing :
    Conn.Select [(lit "foo", ⟨.MONGO, lit "mongo.conn.yao", lit "foo"⟩)] (lit "foo") =
      (none, none) ∧
    Conn.Select [] (lit "bar") = (none, none) ∧
    Conn.SelectSpec [(lit "foo", ⟨.MONGO, lit "mongo.conn.yao", lit "foo"⟩)] (lit "foo") =
      (some ⟨.MONGO, lit "mongo.conn.yao", lit "foo"⟩, none) ∧
    Conn.SelectSpec [] (lit "bar") = (none, some (lit "bar" ++ lit " not found")) :=
  ⟨rfl, rfl, by decide, by decide⟩

/-- C4: at the failing input (a mongo DSL with a database name but an
empty hosts list), `setDefaults` reports no configuration error — its
hosts-required check sits inside the per-host loop, which never runs —
and `Register` proceeds to attempt a network connection with the empty
connection string. -/
theorem C4_empty_hosts_skips_validation :
    Mongo.setDefaults id { options := { db := lit "test" } } =
      .ok { options := { db := lit "test", timeout := 5 } } ∧
    Mongo.RegisterSteps id { options := { db := lit "test" } } =
      .connectionAttempt [] :=
  ⟨rfl, rfl⟩

theorem getD_zero_eq_headD (l : List Str) : l.getD 0 [] = l.headD [] := by
  cases l <;> rfl

theorem getD_length_eq_getLastD_aux (t : List Str) :
    ∀ b : Str, (b :: t).getD t.length [] = t.getLastD b := by
  induction t with
  | nil => intro b; rfl
  | cons c t2 ih =>
    intro b
    have h1 : (b :: c :: t2).getD (c :: t2).length [] = (c :: t2).getD t2.length [] := by
      simp [List.getD_cons_succ]
    rw [h1, ih c, List.getLastD_cons]

theorem getD_last_eq_getLastD (l : List Str) :
    l.getD (l.length - 1) [] = l.getLastD [] := by
  cases l with
  | nil => rfl
  | cons b t =>
    have h1 : (b :: t).length - 1 = t.length := by simp
    rw [h1, getD_length_eq_getLastD_aux t b, List.getLastD_cons]

theorem take_sub_one_eq_dropLast (l : List Str) :
    (l.drop 1).take (l.length - 1 - 1) = (l.drop 1).dropLast := by
  rw [List.dropLast_eq_take]
  congr 1
  simp [List.length_drop]

/-- C1: for every process name with at least 3 dot-separated segments,
the field-derivation step of `extraProcess` sets the domain to the
lowercased first segment, the method to the lowercased last segment,
and the class to the intermediate segments rejoined with `.` and
lowercased; and whenever `extraProcess` succeeds, the constructed
caller carries exactly the fields that step derived. -/
theorem C1_fields_lowercased :
    (∀ name : Str, 3 ≤ (Gou.splitDot name).length →
      Gou.parseFields name =
        .ok (Gou.goToLower ((Gou.splitDot name).headD []),
             Gou.goToLower (Gou.joinDot ((Gou.splitDot name).drop 1).dropLast),
             Gou.goToLower ((Gou.splitDot name).getLastD []))) ∧
    (∀ (name : Str) (args : List Gou.GoValue) (c : Gou.Caller),
      Gou.extraProcess name args = .ok c →
      c.Name = name ∧ c.Args = args ∧
        Gou.parseFields name = .ok (c.Typ, c.Class, c.Method)) := by
  constructor
  · intro name h
    unfold Gou.parseFields
    have h2 : ¬ ((Gou.splitDot name).length - 1 < 2) := by omega
    simp only [h2, if_false]
    rw [getD_zero_eq_headD, getD_last_eq_getLastD, take_sub_one_eq_dropLast]
  · intro name args c h
    unfold Gou.extraProcess at h
    cases hp : Gou.parseFields name with
    | error e => rw [hp] at h; simp [Bind.bind, Except.bind] at h
    | ok tcm =>
      rw [hp] at h
      obtain ⟨t, cl, m⟩ := tcm
      simp only [Bind.bind, Except.bind] at h
      unfold Gou.bindHandler at h
      by_cases h1 : t = lit "plugins"
      · simp only [h1, if_true] at h
        cases h
        simp [hp, h1]
      · simp only [h1, if_false] at h
        by_cases h2 : t = lit "models"
        · simp only [h2, if_true] at h
          cases hm : Gou.ModelHandlers m with
          | none => rw [hm] at h; cases h
          | some hd => rw [hm] at h; cases h; simp [hp, h2]
        · simp only [h2, if_false] at h
          cases h
          simp [hp]

/-- C1 witness: `Models.User.Pet.Find` parses to domain `models`, class
`user.pet`, method `find`, and `extraProcess` on
`plugins.user.pet.login` builds a caller carrying the parsed fields. -/
theorem C1_fields_lowercased_witness :
    (3 ≤ (Gou.splitDot (lit "Models.User.Pet.Find")).length ∧
      Gou.parseFields (lit "Models.User.Pet.Find") =
        .ok (Gou.goToLower ((Gou.splitDot (lit "Models.User.Pet.Find")).headD []),
             Gou.goToLower (Gou.joinDot ((Gou.splitDot (lit "Models.User.Pet.Find")).drop 1).dropLast),
             Gou.goToLower ((Gou.splitDot (lit "Models.User.Pet.Find")).getLastD []))) ∧
    ((⟨lit "plugins.User.Login", lit "plugins", lit "user", lit "login", [],
        some .exec⟩ : Gou.Caller).Name = lit "plugins.User.Login" ∧
      (⟨lit "plugins.User.Login", lit "plugins", lit "user", lit "login", [],
        some .exec⟩ : Gou.Caller).Args = [] ∧
      Gou.parseFields (lit "plugins.User.Login") =
        .ok ((⟨lit "plugins.User.Login", lit "plugins", lit "user", lit "login", [],
          some .exec⟩ : Gou.Caller).Typ, lit "user", lit "login")) :=
  ⟨⟨by decide, C1_fields_lowercased.1 (lit "Models.User.Pet.Find") (by decide)⟩,
    C1_fields_lowercased.2 (lit "plugins.User.Login") []
      ⟨lit "plugins.User.Login", lit "plugins", lit "user", lit "login", [], some .exec⟩ rfl⟩

/-- C6: in models dispatch, `callerFind` substitutes empty query
options and proceeds when its second argument is not of the
`QueryParam` type (and forwards the options when it is), whereas
`callerGet` raises the hard wrong-argument failure when its first
argument is not of the `QueryParam` type. -/
theorem C6_find_lenient_get_strict :
    (∀ (name cls : Str) (k v : Gou.GoValue), Gou.isQueryParam v = false →
      Gou.callerFind ⟨name, lit "models", cls, lit "find", [k, v], some (.model .find)⟩ =
        .ok (.opResult (.find cls k {}))) ∧
    (∀ (name cls : Str) (k : Gou.GoValue) (p : Gou.QueryParam),
      Gou.callerFind ⟨name, lit "models", cls, lit "find", [k, .queryParam p],
          some (.model .find)⟩ =
        .ok (.opResult (.find cls k p))) ∧
    (∀ (name cls : Str) (w : Gou.GoValue), Gou.isQueryParam w = false →
      Gou.callerGet ⟨name, lit "models", cls, lit "get", [w], some (.model .get)⟩ =
        .error (Gou.badArg1Err w)) := by
  refine ⟨?_, ?_, ?_⟩
  · intro name cls k v hv
    cases v <;>
      simp_all [Gou.callerFind, Gou.validateArgNums, Gou.isQueryParam,
        Bind.bind, Except.bind]
  · intro name cls k p
    simp [Gou.callerFind, Gou.validateArgNums, Bind.bind, Except.bind]
  · intro name cls w hw
    cases w <;>
      simp_all [Gou.callerGet, Gou.validateArgNums, Gou.isQueryParam,
        Bind.bind, Except.bind]

/-- C6 witness: with a non-`QueryParam` second argument (`7`) `find`
proceeds with empty options; with a `QueryParam` it forwards it; with a
non-`QueryParam` first argument (`"x"`) `get` throws the
wrong-argument error. -/
theorem C6_find_lenient_get_strict_witness :
    Gou.callerFind ⟨lit "models.user.find", lit "models", lit "user", lit "find",
        [.str (lit "1"), .int 7], some (.model .find)⟩ =
      .ok (.opResult (.find (lit "user") (.str (lit "1")) {})) ∧
    Gou.callerFind ⟨lit "models.user.find", lit "models", lit "user", lit "find",
        [.str (lit "1"), .queryParam ⟨[lit "w"]⟩], some (.model .find)⟩ =
      .ok (.opResult (.find (lit "user") (.str (lit "1")) ⟨[lit "w"]⟩)) ∧
    Gou.callerGet ⟨lit "models.user.get", lit "models", lit "user", lit "get",
        [.str (lit "x")], some (.model .get)⟩ =
      .error (Gou.badArg1Err (.str (lit "x"))) :=
  ⟨C6_find_lenient_get_strict.1 (lit "models.user.find") (lit "user")
      (.str (lit "1")) (.int 7) rfl,
    C6_find_lenient_get_strict.2.1 (lit "models.user.find") (lit "user")
      (.str (lit "1")) ⟨[lit "w"]⟩,
    C6_find_lenient_get_strict.2.2 (lit "models.user.get") (lit "user")
      (.str (lit "x")) rfl⟩

theorem insertRowsLoop_map (arg1 : Gou.GoValue) (yss : List (List Gou.GoValue)) :
    Gou.insertRowsLoop arg1 (yss.map Gou.GoValue.list) = .ok yss := by
  induction yss with
  | nil => rfl
  | cons y t ih => simp [Gou.insertRowsLoop, ih, Bind.bind, Except.bind]

theorem insertRowsLoop_bad (arg1 : Gou.GoValue) (ys : List Gou.GoValue)
    (h : ys.all Gou.isListVal = false) :
    Gou.insertRowsLoop arg1 ys = .error (Gou.badArg2Err arg1) := by
  induction ys with
  | nil => simp at h
  | cons y t ih =>
    cases y <;> try rfl
    case list l =>
      have ht : t.all Gou.isListVal = false := by
        simpa [Gou.isListVal] using h
      simp [Gou.insertRowsLoop, Bind.bind, Except.bind, ih ht]

/-- C7: `callerInsert` accepts a `[]string` or an element-wise coerced
`[]interface{}` for its columns argument, and a `[][]interface{}` or a
`[]interface{}` of rows for its rows argument; an argument matching
neither form raises the hard wrong-argument failure, so the insert
operation is never reached. -/
theorem C7_insert_shapes :
    (∀ (name cls : Str) (cols : List Str) (rows : List (List Gou.GoValue)),
      Gou.callerInsert ⟨name, lit "models", cls, lit "insert",
          [.strList cols, .rowsList rows], some (.model .insert)⟩ =
        .ok (.nilAfter (.insert cls cols rows))) ∧
    (∀ (name cls : Str) (xs : List Gou.GoValue) (rows : List (List Gou.GoValue)),
      Gou.callerInsert ⟨name, lit "models", cls, lit "insert",
          [.list xs, .rowsList rows], some (.model .insert)⟩ =
        .ok (.nilAfter (.insert cls (xs.map Gou.strOf) rows))) ∧
    (∀ (name cls : Str) (cols : List Str) (yss : List (List Gou.GoValue)),
      Gou.callerInsert ⟨name, lit "models", cls, lit "insert",
          [.strList cols, .list (yss.map Gou.GoValue.list)], some (.model .insert)⟩ =
        .ok (.nilAfter (.insert cls cols yss))) ∧
    (∀ (name cls : Str) (a b : Gou.GoValue), Gou.isColsShape a = false →
      Gou.callerInsert ⟨name, lit "models", cls, lit "insert",
          [a, b], some (.model .insert)⟩ =
        .error (Gou.badArg1Err a)) ∧
    (∀ (name cls : Str) (cols : List Str) (b : Gou.GoValue),
      Gou.isRowsShape b = false →
      Gou.callerInsert ⟨name, lit "models", cls, lit "insert",
          [.strList cols, b], some (.model .insert)⟩ =
        .error (Gou.badArg2Err b)) := by
  refine ⟨?_, ?_, ?_, ?_, ?_⟩
  · intro name cls cols rows
    simp [Gou.callerInsert, Gou.validateArgNums, Bind.bind, Except.bind]
  · intro name cls xs rows
    simp [Gou.callerInsert, Gou.validateArgNums, Bind.bind, Except.bind]
  · intro name cls cols yss
    simp [Gou.callerInsert, Gou.validateArgNums, Bind.bind, Except.bind,
      insertRowsLoop_map]
  · intro name cls a b ha
    cases a <;>
      simp_all [Gou.isColsShape, Gou.callerInsert, Gou.validateArgNums,
        Bind.bind, Except.bind]
  · intro name cls cols b hb
    cases b <;>
      simp_all [Gou.isRowsShape, Gou.callerInsert, Gou.validateArgNums,
        Bind.bind, Except.bind, insertRowsLoop_bad]

/-- C7 witness: both column shapes and both row shapes are accepted and
coerced; an integer columns argument and a rows argument containing a
non-row element both raise the wrong-argument failures. -/
theorem C7_insert_shapes_witness :
    Gou.callerInsert ⟨lit "models.user.insert", lit "models", lit "user", lit "insert",
        [.strList [lit "name"], .rowsList [[.str (lit "a")]]], some (.model .insert)⟩ =
      .ok (.nilAfter (.insert (lit "user") [lit "name"] [[.str (lit "a")]])) ∧
    Gou.callerInsert ⟨lit "models.user.insert", lit "models", lit "user", lit "insert",
        [.list [.str (lit "name"), .int 2], .rowsList [[.str (lit "a")]]],
        some (.model .insert)⟩ =
      .ok (.nilAfter (.insert (lit "user") [lit "name", lit "2"] [[.str (lit "a")]])) ∧
    Gou.callerInsert ⟨lit "models.user.insert", lit "models", lit "user", lit "insert",
        [.strList [lit "name"], .list [.list [.str (lit "a")], .list [.str (lit "b")]]],
        some (.model .insert)⟩ =
      .ok (.nilAfter (.insert (lit "user") [lit "name"]
        [[.str (lit "a")], [.str (lit "b")]])) ∧
    Gou.callerInsert ⟨lit "models.user.insert", lit "models", lit "user", lit "insert",
        [.int 3, .rowsList []], some (.model .insert)⟩ =
      .error (Gou.badArg1Err (.int 3)) ∧
    Gou.callerInsert ⟨lit "models.user.insert", lit "models", lit "user", lit "insert",
        [.strList [lit "name"], .list [.list [.str (lit "a")], .int 9]],
        some (.model .insert)⟩ =
      .error (Gou.badArg2Err (.list [.list [.str (lit "a")], .int 9])) :=
  ⟨C7_insert_shapes.1 (lit "models.user.insert") (lit "user") [lit "name"] [[.str (lit "a")]],
    C7_insert_shapes.2.1 (lit "models.user.insert") (lit "user")
      [.str (lit "name"), .int 2] [[.str (lit "a")]],
    C7_insert_shapes.2.2.1 (lit "models.user.insert") (lit "user") [lit "name"]
      [[.str (lit "a")], [.str (lit "b")]],
    C7_insert_shapes.2.2.2.1 (lit "models.user.insert") (lit "user") (.int 3)
      (.rowsList []) rfl,
    C7_insert_shapes.2.2.2.2 (lit "models.user.insert") (lit "user") [lit "name"]
      (.list [.list [.str (lit "a")], .int 9]) rfl⟩

/-- C10: on success the `update`, `delete`, `destroy` and `insert`
handlers return `nil` rather than the result of the model operation, while
`find`, `get`, `paginate`, `create`, `save` and plugin execution
propagate the result of the operation to the caller. -/
theorem C10_nil_returns (c : Gou.Caller) :
    Gou.isNilReturn (Gou.callerUpdate c) = true ∧
    Gou.isNilReturn (Gou.callerDelete c) = true ∧
    Gou.isNilReturn (Gou.callerDestroy c) = true ∧
    Gou.isNilReturn (Gou.callerInsert c) = true ∧
    Gou.isPropagating (Gou.callerFind c) = true ∧
    Gou.isPropagating (Gou.callerGet c) = true ∧
    Gou.isPropagating (Gou.callerPaginate c) = true ∧
    Gou.isPropagating (Gou.callerCreate c) = true ∧
    Gou.isPropagating (Gou.callerSave c) = true ∧
    Gou.isPropagating (Gou.callerExec c) = true := by
  refine ⟨?_, ?_, ?_, ?_, ?_, ?_, ?_, ?_, ?_, rfl⟩
  · unfold Gou.callerUpdate
    simp only [Bind.bind, Except.bind]
    split <;> rfl
  · unfold Gou.callerDelete
    simp only [Bind.bind, Except.bind]
    split <;> rfl
  · unfold Gou.callerDestroy
    simp only [Bind.bind, Except.bind]
    split <;> rfl
  · unfold Gou.callerInsert
    simp only [Bind.bind, Except.bind]
    split <;> first
      | rfl
      | (split <;> first
          | rfl
          | (split <;> first
              | rfl
              | (split <;> rfl)))
  · unfold Gou.callerFind
    simp only [Bind.bind, Except.bind]
    split <;> rfl
  · unfold Gou.callerGet
    simp only [Bind.bind, Except.bind]
    split <;> first
      | rfl
      | (split <;> rfl)
  · unfold Gou.callerPaginate
    simp only [Bind.bind, Except.bind]
    split <;> first
      | rfl
      | (split <;> rfl)
  · unfold Gou.callerCreate
    simp only [Bind.bind, Except.bind]
    split <;> rfl
  · unfold Gou.callerSave
    simp only [Bind.bind, Except.bind]
    split <;> rfl

/-- C8: whenever `Load(file, id)` returns an error — from the file
read, the DSL parse, an unsupported type discriminator, or the driver
call `Register` — the Connector Table is left exactly as it was. -/
theorem C8_load_failure_preserves_table (env : Conn.LoadEnv) (table : Conn.ConnTable)
    (file id e : Str) (h : (Conn.Load env table file id).2 = .error e) :
    (Conn.Load env table file id).1 = table := by
  unfold Conn.Load at h ⊢
  cases hr : env.readResult with
  | error er => simp [hr]
  | ok data =>
    simp only [hr] at h ⊢
    cases hp : env.parseResult data with
    | error ep => simp [hp]
    | ok dsl =>
      simp only [hp] at h ⊢
      cases hm : Conn.make dsl.type with
      | error em => simp [hm]
      | ok kind =>
        simp only [hm] at h ⊢
        cases hg : env.registerResult kind file id data with
        | error eg => simp [hg]
        | ok u =>
          simp only [hg] at h
          cases h

/-- C8 witness: a `Load` whose file read fails leaves a one-entry table
untouched. -/
theorem C8_load_failure_preserves_table_witness :
    (Conn.Load ⟨.error (lit "no such file"), fun _ => .ok ⟨lit "document-store"⟩,
        fun _ _ _ _ => .ok ()⟩
      [(lit "a", ⟨.DATABASE, lit "fa", lit "a"⟩)] (lit "f.conn.yao") (lit "b")).2 =
      .error (lit "no such file") ∧
    (Conn.Load ⟨.error (lit "no such file"), fun _ => .ok ⟨lit "document-store"⟩,
        fun _ _ _ _ => .ok ()⟩
      [(lit "a", ⟨.DATABASE, lit "fa", lit "a"⟩)] (lit "f.conn.yao") (lit "b")).1 =
      [(lit "a", ⟨.DATABASE, lit "fa", lit "a"⟩)] :=
  ⟨rfl, C8_load_failure_preserves_table _ _ _ _ (lit "no such file") rfl⟩

theorem goJoin_mem (sep x : Str) (l : List Str) (hx : x ∈ l) :
    ∃ pre post, Gou.goJoin sep l = pre ++ x ++ post := by
  induction l with
  | nil => cases hx
  | cons s rest ih =>
    cases rest with
    | nil =>
      rcases List.mem_singleton.mp hx with rfl
      exact ⟨[], [], by simp [Gou.goJoin]⟩
    | cons r t =>
      rcases List.mem_cons.mp hx with rfl | hx2
      · exact ⟨[], sep ++ Gou.goJoin sep (r :: t), by simp [Gou.goJoin]⟩
      · obtain ⟨pre, post, hpp⟩ := ih hx2
        exact ⟨s ++ sep ++ pre, post, by simp [Gou.goJoin, hpp]⟩

theorem hostString_ok_shape (i : Nat) (h : Mongo.Host) (s : Str)
    (hok : Mongo.hostString i h = .ok s) :
    s = h.user ++ lit ":" ++ h.pass ++ lit "@" ++ h.host ++ lit ":" ++
      (if h.port = [] then lit "27017" else h.port) := by
  unfold Mongo.hostString at hok
  split_ifs at hok with h1 h2 h3 h4
  · cases hok
    simp [h2]
  · cases hok
    simp [h2]

theorem buildHosts_mem_shape (h : Mongo.Host) :
    ∀ (i : Nat) (hosts : List Mongo.Host) (strs : List Str), h ∈ hosts →
      Mongo.buildHosts i hosts = .ok strs →
      (h.user ++ lit ":" ++ h.pass ++ lit "@" ++ h.host ++ lit ":" ++
        (if h.port = [] then lit "27017" else h.port)) ∈ strs := by
  intro i hosts
  induction hosts generalizing i with
  | nil => intro strs hm; cases hm
  | cons hd tl ih =>
    intro strs hm hb
    unfold Mongo.buildHosts at hb
    simp only [Bind.bind, Except.bind] at hb
    cases hs : Mongo.hostString i hd with
    | error e => rw [hs] at hb; cases hb
    | ok s =>
      rw [hs] at hb
      cases hrest : Mongo.buildHosts (i + 1) tl with
      | error e => rw [hrest] at hb; cases hb
      | ok rs =>
        rw [hrest] at hb
        cases hb
        rcases List.mem_cons.mp hm with rfl | hm2
        · have hs2 := hostString_ok_shape i h s hs
          subst hs2
          exact List.mem_cons_self _ _
        · exact List.mem_cons_of_mem _ (ih (i + 1) rs hm2 hrest)

/-- C9: for every mongo host entry that (after environment
substitution) has host, user and password present but omits the port,
a successfully assembled connection string contains the
credentials-and-address block of that host with the default driver
port 27017. -/
theorem C9_default_port (o : Mongo.Options) (h : Mongo.Host) (dsn : Str)
    (hmem : h ∈ o.hosts) (hhost : h.host ≠ []) (huser : h.user ≠ [])
    (hpass : h.pass ≠ []) (hport : h.port = [])
    (hok : Mongo.getDSN o = .ok dsn) :
    ∃ pre post,
      dsn = pre ++ (h.user ++ lit ":" ++ h.pass ++ lit "@" ++ h.host ++
        lit ":" ++ lit "27017") ++ post := by
  unfold Mongo.getDSN at hok
  by_cases hdb : o.db = []
  · simp [hdb] at hok
  by_cases hlen : o.hosts.length = 0
  · simp [hdb, hlen] at hok
  rw [if_neg hdb, if_neg hlen] at hok
  simp only [Bind.bind, Except.bind] at hok
  cases hb : Mongo.buildHosts 0 o.hosts with
  | error e => rw [hb] at hok; simp at hok
  | ok strs =>
    rw [hb] at hok
    have hx := buildHosts_mem_shape h 0 o.hosts strs hmem hb
    rw [hport] at hx
    simp only [if_pos rfl] at hx
    obtain ⟨pre0, post0, hj⟩ := goJoin_mem (lit ",") _ strs hx
    split_ifs at hok
    · injection hok with hdsn
      refine ⟨lit "mongodb://" ++ pre0,
        post0 ++ lit "/" ++ lit "?" ++
          Gou.goJoin (lit "&") (o.params.map (fun p => p.1 ++ lit "=" ++ p.2)), ?_⟩
      rw [← hdsn, hj]
      simp [List.append_assoc]
    · injection hok with hdsn
      refine ⟨lit "mongodb://" ++ pre0, post0 ++ lit "/", ?_⟩
      rw [← hdsn, hj]
      simp [List.append_assoc]

/-- C9 witness: in the two-host fixture whose first host omits the
port, the assembled DSN contains `u1:p1@h1:27017`. -/
theorem C9_default_port_witness :
    portFixtureHost ∈ portFixtureOptions.hosts ∧
    Mongo.getDSN portFixtureOptions =
      .ok (lit "mongodb://u1:p1@h1:27017,u2:p2@h2:27018/?ssl=true") ∧
    (∃ pre post, lit "mongodb://u1:p1@h1:27017,u2:p2@h2:27018/?ssl=true" =
      pre ++ (portFixtureHost.user ++ lit ":" ++ portFixtureHost.pass ++ lit "@" ++
        portFixtureHost.host ++ lit ":" ++ lit "27017") ++ post) :=
  ⟨by decide, by rfl,
    C9_default_port portFixtureOptions portFixtureHost _ (by decide)
      (by decide) (by decide) (by decide) rfl rfl⟩
